/-
Verification of the pastebin-lite availability-and-expiry core.

The development shallowly embeds:
  * the SQL schema and stored procedures of `supabase/migrations/001_initial_schema.sql`
    (`set_expires_at`, `is_paste_available`, `increment_paste_views`),
  * the data-access layer `lib/db/pastes.ts`
    (`createPaste`, `getPasteAndIncrementViews`, `getPasteUnavailabilityReason`),
  * the HTTP handlers `POST /api/pastes` and `GET /api/pastes/:id`,
  * the test-time helper `lib/utils/test-mode.ts` (`getTestTime`) and the Zod
    schemas of `lib/schemas/paste.ts`.

Timestamps are modelled as integers (milliseconds since the epoch, matching the
`test_now_ms` convention of the code).  The database table is modelled as an
association list from id strings to rows; each stored procedure is one atomic
step on this state, which is exactly the atomicity granted by the database, so
concurrent executions are modelled as arbitrary sequential interleavings of
these atomic steps.
-/
import Mathlib

namespace PastebinLite

/-- A row of the `pastes` table (`001_initial_schema.sql`, `lib/types/paste.ts`):
content, optional `ttl_seconds` and `max_views`, a view counter, the creation
timestamp and the derived expiry timestamp. -/
structure Paste where
  content : String
  ttl_seconds : Option Int
  max_views : Option Int
  /-- `INTEGER NOT NULL DEFAULT 0`, only ever incremented, hence a `Nat`. -/
  view_count : Nat
  created_at : Int
  expires_at : Option Int
  deriving Repr, DecidableEq

/-- The `pastes` table: an association list from id to row (`id` is the
primary key; lookups return the first matching row). -/
abbrev Store := List (String × Paste)

/-- Point lookup by id (`SELECT * FROM pastes WHERE id = paste_id`). -/
def Store.find (s : Store) (pid : String) : Option Paste :=
  match s with
  | [] => none
  | (k, p) :: rest => if k = pid then some p else Store.find rest pid

/-- Replace the row keyed `pid` (the row scan of an `UPDATE ... WHERE id = paste_id`;
`id` is the primary key, so at most the first matching row is touched). -/
def Store.update (s : Store) (pid : String) (p : Paste) : Store :=
  match s with
  | [] => []
  | (k, q) :: rest =>
    if k = pid then (k, p) :: rest else (k, q) :: Store.update rest pid p

/-- Trigger function `set_expires_at`: `expires_at := created_at + ttl_seconds`
when `ttl_seconds` is set (seconds scaled to the millisecond timeline), else
`NULL`. -/
def set_expires_at (p : Paste) : Paste :=
  match p.ttl_seconds with
  | some ttl => { p with expires_at := some (p.created_at + ttl * 1000) }
  | none => { p with expires_at := none }

/-- The TTL clause of the stored procedures: `expires_at IS NULL OR expires_at > check_time`. -/
def notExpiredAt (p : Paste) (check_time : Int) : Bool :=
  match p.expires_at with
  | none => true
  | some e => decide (check_time < e)

/-- The view-limit clause: `max_views IS NULL OR view_count < max_views`. -/
def viewsBelowLimit (p : Paste) : Bool :=
  match p.max_views with
  | none => true
  | some m => decide ((p.view_count : Int) < m)

/-- Stored procedure `is_paste_available(paste_id, check_time)`: `FALSE` when the
row is missing; `FALSE` when `expires_at` is set and `check_time >= expires_at`;
`FALSE` when `max_views` is set and `view_count >= max_views`; else `TRUE`. -/
def is_paste_available (s : Store) (paste_id : String) (check_time : Int) : Bool :=
  match Store.find s paste_id with
  | none => false
  | some p =>
    if (match p.expires_at with
        | some e => decide (check_time ≥ e)
        | none => false) then false
    else if (match p.max_views with
        | some m => decide ((p.view_count : Int) ≥ m)
        | none => false) then false
    else true

/-- Stored procedure `increment_paste_views(paste_id, check_time)`: one atomic
conditional `UPDATE` that increments `view_count` only when the row exists,
`max_views IS NULL OR view_count < max_views`, and
`expires_at IS NULL OR expires_at > check_time`; returns the new `view_count`,
or `-1` (`COALESCE(new_view_count, -1)`) when no row was updated. -/
def increment_paste_views (s : Store) (paste_id : String) (check_time : Int) :
    Store × Int :=
  match Store.find s paste_id with
  | none => (s, -1)
  | some p =>
    if viewsBelowLimit p && notExpiredAt p check_time then
      (Store.update s paste_id { p with view_count := p.view_count + 1 },
        (p.view_count : Int) + 1)
    else (s, -1)

/-- Outcome of the engine's consume operation: the paste payload on success,
`null` ("absent") when the paste is unavailable or could not be re-read, or a
thrown `DatabaseError`. -/
inductive ConsumeResult where
  | success (p : Paste)
  | absent
  | dbError
  deriving Repr, DecidableEq

/-- `getPasteAndIncrementViews` (`lib/db/pastes.ts`): call the atomic
`increment_paste_views` RPC, throwing `DatabaseError` when the RPC itself fails
(`incrFails` models that fault) and returning `null` when it yields `-1`;
otherwise re-read the row with `SELECT ... WHERE id = ...` and return `null`
when that read errors (`fetchFails`) or finds no data, else the row.  The
returned store is the table state after the call. -/
def getPasteAndIncrementViews (s : Store) (id : String) (now : Int)
    (incrFails fetchFails : Bool) : Store × ConsumeResult :=
  if incrFails then (s, .dbError)
  else
    let res := increment_paste_views s id now
    if res.2 = -1 then (res.1, .absent)
    else if fetchFails then (res.1, .absent)
    else
      match Store.find res.1 id with
      | none => (res.1, .absent)
      | some p => (res.1, .success p)

/-- The unavailability labels of `getPasteUnavailabilityReason`. -/
inductive Reason where
  | not_found
  | expired
  | max_views_reached
  deriving Repr, DecidableEq

/-- `getPasteUnavailabilityReason` (`lib/db/pastes.ts`): raw lookup; `not_found`
when the row is missing; else `expired` when `expires_at` is set and
`now >= expires_at`; else `max_views_reached` when `max_views` is set and
`view_count >= max_views`; else the `not_found` fallback. -/
def getPasteUnavailabilityReason (s : Store) (id : String) (now : Int) : Reason :=
  match Store.find s id with
  | none => .not_found
  | some p =>
    if (match p.expires_at with
        | some e => decide (now ≥ e)
        | none => false) then .expired
    else if (match p.max_views with
        | some m => decide ((p.view_count : Int) ≥ m)
        | none => false) then .max_views_reached
    else .not_found

/-- The `remaining_views` computation of the `GET /api/pastes/:id` handler and
the `/p/:id` page: `null` when `max_views` is `null`, else
`Math.max(0, max_views - view_count)`. -/
def remaining_views (p : Paste) : Option Int :=
  match p.max_views with
  | none => none
  | some m => some (max 0 (m - (p.view_count : Int)))

/-- JavaScript `parseInt(s, 10)` as used on the `x-test-now-ms` header: skip
leading whitespace, read an optional sign and the longest digit prefix; `NaN`
(here `none`) when no digit is read. -/
def parseIntJS (s : String) : Option Int :=
  let cs := s.toList.dropWhile (fun c => c = ' ' || c = '\t' || c = '\n' || c = '\r')
  let (neg, cs) :=
    match cs with
    | '-' :: rest => (true, rest)
    | '+' :: rest => (false, rest)
    | rest => (false, rest)
  let digits := cs.takeWhile Char.isDigit
  if digits.isEmpty then none
  else
    let n : Nat := digits.foldl (fun acc c => acc * 10 + (c.toNat - '0'.toNat)) 0
    some (if neg then -(n : Int) else (n : Int))

/-- `getTestTime` (`lib/utils/test-mode.ts`): `null` unless the `TEST_MODE`
environment variable is exactly `'1'`; otherwise read the `x-test-now-ms`
header (`null` or the empty string are falsy and give `null`) and parse it,
mapping `NaN` to `null`. -/
def getTestTime (testModeEnv : Option String) (headerVal : Option String) :
    Option Int :=
  if testModeEnv ≠ some "1" then none
  else
    match headerVal with
    | none => none
    | some v => if v = "" then none else parseIntJS v

/-- The UUID shape accepted by `pasteIdSchema`'s `z.string().uuid(...)`:
8-4-4-4-12 hexadecimal digits separated by hyphens. -/
def isValidUuid (s : String) : Bool :=
  let hex := fun (c : Char) =>
    c.isDigit || ('a' ≤ c && c ≤ 'f') || ('A' ≤ c && c ≤ 'F')
  let cs := s.toList
  decide (cs.length = 36) &&
    (List.range 36).all (fun i =>
      if i = 8 || i = 13 || i = 18 || i = 23 then cs.getD i ' ' = '-'
      else hex (cs.getD i ' '))

/-- The `GET /api/pastes/:id` handler (`app/api/pastes/[id]/route.ts`),
reduced to its HTTP status and the table state it leaves behind: `400` before
touching the store when `pasteIdSchema` rejects the id; `500` when
`getPasteAndIncrementViews` throws `DatabaseError`; `404` (after the
diagnosis-only `getPasteUnavailabilityReason` read) when it returns `null`;
`200` on success. -/
def getPasteHandler (s : Store) (id : String) (now : Int)
    (incrFails fetchFails : Bool) : Nat × Store :=
  if !isValidUuid id then (400, s)
  else
    match getPasteAndIncrementViews s id now incrFails fetchFails with
    | (s2, .dbError) => (500, s2)
    | (s2, .absent) => (404, s2)
    | (s2, .success _) => (200, s2)

/-- `CreatePasteInput` (`lib/types/paste.ts`): the client-supplied fields. -/
structure CreatePasteInput where
  content : String
  ttl_seconds : Option Int
  max_views : Option Int
  deriving Repr, DecidableEq

/-- `createPasteSchema` (`lib/schemas/paste.ts`): content non-empty, and each
optional numeric field, when present, an integer `≥ 1`. -/
def createPasteSchemaOk (input : CreatePasteInput) : Bool :=
  decide (1 ≤ input.content.length) &&
    (match input.ttl_seconds with
     | none => true
     | some t => decide (1 ≤ t)) &&
    (match input.max_views with
     | none => true
     | some m => decide (1 ≤ m))

/-- The `INSERT INTO pastes` executed by `createPaste`: the CHECK constraints
of the schema (`length(content) > 0`, `ttl_seconds IS NULL OR ttl_seconds >= 1`,
`max_views IS NULL OR max_views >= 1`) reject the row (`none`); otherwise the
row is stored with `view_count = 0`, `created_at = now` and `expires_at` set by
the `set_expires_at` trigger. -/
def dbInsert (s : Store) (input : CreatePasteInput) (newId : String) (now : Int) :
    Option (Store × Paste) :=
  if decide (0 < input.content.length) &&
      (match input.ttl_seconds with
       | none => true
       | some t => decide (1 ≤ t)) &&
      (match input.max_views with
       | none => true
       | some m => decide (1 ≤ m)) then
    let row := set_expires_at
      { content := input.content, ttl_seconds := input.ttl_seconds
        max_views := input.max_views, view_count := 0
        created_at := now, expires_at := none }
    some (s ++ [(newId, row)], row)
  else none

/-- Outcome of the store-level `createPaste`, tagged with the error class of
`lib/utils/errors.ts` it throws: `DatabaseError` when the insert fails (there
is no store-level `ValidationError` path in the code). -/
inductive CreateOutcome where
  | created (s : Store) (p : Paste)
  | databaseError
  | validationError
  deriving Repr, DecidableEq

/-- `createPaste` (`lib/db/pastes.ts`): run the insert and throw
`DatabaseError` when it errors or returns no data; no input validation is
performed at this level. -/
def createPaste (s : Store) (input : CreatePasteInput) (newId : String)
    (now : Int) : CreateOutcome :=
  match dbInsert s input newId now with
  | none => .databaseError
  | some (s2, p) => .created s2 p

/-- The `POST /api/pastes` handler (`app/api/pastes/route.ts`), reduced to its
HTTP status and the table state it leaves behind: `400` when
`createPasteSchema` rejects the body, before `createPaste` is called; `500`
when `createPaste` throws `DatabaseError`; `201` on success. -/
def postPasteHandler (s : Store) (input : CreatePasteInput) (newId : String)
    (now : Int) : Nat × Store :=
  if !createPasteSchemaOk input then (400, s)
  else
    match createPaste s input newId now with
    | .created s2 _ => (201, s2)
    | _ => (500, s)

/-- A batch of `try_consume` calls against one paste, one per supplied
timestamp.  Each call's only store interaction is the single atomic
`increment_paste_views` step, so every concurrent schedule of the calls is one
such sequence (the re-reads commute with everything). -/
def runConsumes (s : Store) (id : String) (times : List Int) :
    Store × List ConsumeResult :=
  match times with
  | [] => (s, [])
  | t :: ts =>
    let step := getPasteAndIncrementViews s id t false false
    let rest := runConsumes step.1 id ts
    (rest.1, step.2 :: rest.2)

/-- Count of calls that returned the paste. -/
def succCount (rs : List ConsumeResult) : Nat :=
  rs.countP (fun r => match r with | .success _ => true | _ => false)

/-- Count of calls that observed "absent". -/
def absCount (rs : List ConsumeResult) : Nat :=
  rs.countP (fun r => match r with | .absent => true | _ => false)

section Scratch

def pasteA : Paste :=
  { content := "hello", ttl_seconds := none, max_views := some 2
    view_count := 0, created_at := 0, expires_at := none }

def storeA : Store := [("a", pasteA)]

example : is_paste_available storeA "a" 5 = true := by decide
example : is_paste_available storeA "b" 5 = false := by decide
example : (increment_paste_views storeA "a" 5).2 = 1 := by decide
example :
    (increment_paste_views (increment_paste_views storeA "a" 5).1 "a" 6).2 = 2 := by
  decide
example :
    (increment_paste_views
      (increment_paste_views (increment_paste_views storeA "a" 5).1 "a" 6).1 "a" 7).2
      = -1 := by decide

example :
    succCount (runConsumes storeA "a" [1, 2, 3, 4, 5]).2 = 2 ∧
    absCount (runConsumes storeA "a" [1, 2, 3, 4, 5]).2 = 3 := by decide

example : getPasteUnavailabilityReason storeA "zzz" 0 = .not_found := by decide

example :
    getPasteUnavailabilityReason
      [("a", { pasteA with expires_at := some 10, view_count := 2 })] "a" 10
      = .expired := by decide

example : isValidUuid "123e4567-e89b-12d3-a456-426614174000" = true := by decide
example : isValidUuid "not-a-uuid" = false := by decide

example : getTestTime (some "0") (some "12345") = none := by decide
example : getTestTime (some "1") (some "12345") = some 12345 := by decide
example : getTestTime (some "1") (some "xyz") = none := by decide

example :
    createPaste [] ⟨"", none, none⟩ "id1" 0 = .databaseError := by decide
example :
    postPasteHandler [] ⟨"", none, none⟩ "id1" 0 = (400, []) := by decide
example :
    (getPasteAndIncrementViews storeA "a" 5 false true).2 = .absent ∧
    (getPasteAndIncrementViews storeA "a" 5 false true).1 ≠ storeA := by decide

end Scratch

/-- A row keeps its view count within its view limit. -/
def viewWithinLimit (p : Paste) : Bool :=
  match p.max_views with
  | none => true
  | some m => decide ((p.view_count : Int) ≤ m)

/-- Every row of the table keeps its view count within its view limit. -/
def storeInv (s : Store) : Bool :=
  s.all (fun kp => viewWithinLimit kp.2)

theorem find_some_mem {s : Store} {pid : String} {p : Paste}
    (h : Store.find s pid = some p) : (pid, p) ∈ s := by
  induction s with
  | nil => simp [Store.find] at h
  | cons kp rest ih =>
    obtain ⟨k, q⟩ := kp
    simp only [Store.find] at h
    split at h
    · next heq =>
      cases h
      exact heq ▸ List.mem_cons_self _ _
    · exact List.mem_cons_of_mem _ (ih h)

theorem find_update_self {s : Store} {pid : String} {p q : Paste}
    (h : Store.find s pid = some p) :
    Store.find (Store.update s pid q) pid = some q := by
  induction s with
  | nil => simp [Store.find] at h
  | cons kp rest ih =>
    obtain ⟨k, r⟩ := kp
    simp only [Store.find, Store.update] at h ⊢
    by_cases hk : k = pid
    · simp [hk, Store.find]
    · simp only [hk, if_false] at h ⊢
      simp only [Store.find, hk, if_false]
      exact ih h

theorem find_update_ne {s : Store} {pid k : String} {q : Paste}
    (h : k ≠ pid) :
    Store.find (Store.update s pid q) k = Store.find s k := by
  induction s with
  | nil => simp [Store.update]
  | cons kp rest ih =>
    obtain ⟨k', r⟩ := kp
    simp only [Store.update]
    by_cases hk : k' = pid
    · have hne : k' ≠ k := fun hh => h (hh ▸ hk)
      simp [hk, Store.find, hne, Ne.symm h]
    · by_cases hkk : k' = k
      · simp [hk, hkk, Store.find, h]
      · simp [hk, hkk, Store.find, ih]

theorem storeInv_mem {s : Store} {pid : String} {p : Paste}
    (hs : storeInv s = true) (h : Store.find s pid = some p) :
    viewWithinLimit p = true := by
  have hmem := find_some_mem h
  simp only [storeInv, List.all_eq_true] at hs
  exact hs _ hmem

theorem storeInv_update {s : Store} {pid : String} {q : Paste}
    (hs : storeInv s = true) (hq : viewWithinLimit q = true) :
    storeInv (Store.update s pid q) = true := by
  induction s with
  | nil => simp [Store.update, storeInv]
  | cons kp rest ih =>
    obtain ⟨k, r⟩ := kp
    simp only [storeInv, List.all_cons, Bool.and_eq_true] at hs
    simp only [Store.update]
    by_cases hk : k = pid
    · simp only [if_pos hk, storeInv, List.all_cons, Bool.and_eq_true]
      exact ⟨hq, hs.2⟩
    · simp only [if_neg hk, storeInv, List.all_cons, Bool.and_eq_true]
      exact ⟨hs.1, ih hs.2⟩

theorem increment_success_eq {s : Store} {id : String} {p : Paste} {t : Int}
    (hfind : Store.find s id = some p)
    (hcond : (viewsBelowLimit p && notExpiredAt p t) = true) :
    increment_paste_views s id t =
      (Store.update s id { p with view_count := p.view_count + 1 },
       (p.view_count : Int) + 1) := by
  unfold increment_paste_views
  rw [hfind]
  simp [hcond]

theorem increment_fail_eq {s : Store} {id : String} {p : Paste} {t : Int}
    (hfind : Store.find s id = some p)
    (hcond : (viewsBelowLimit p && notExpiredAt p t) = false) :
    increment_paste_views s id t = (s, -1) := by
  unfold increment_paste_views
  rw [hfind]
  simp [hcond]

theorem increment_missing_eq {s : Store} {id : String} {t : Int}
    (hfind : Store.find s id = none) :
    increment_paste_views s id t = (s, -1) := by
  unfold increment_paste_views
  rw [hfind]

theorem consume_success_eq {s : Store} {id : String} {p : Paste} {t : Int}
    (hfind : Store.find s id = some p)
    (hcond : (viewsBelowLimit p && notExpiredAt p t) = true) :
    getPasteAndIncrementViews s id t false false =
      (Store.update s id { p with view_count := p.view_count + 1 },
       .success { p with view_count := p.view_count + 1 }) := by
  have h1 : ¬ ((p.view_count : Int) + 1 = -1) := by omega
  simp [getPasteAndIncrementViews, increment_success_eq hfind hcond, h1,
    find_update_self hfind]

theorem consume_fail_eq {s : Store} {id : String} {p : Paste} {t : Int}
    (hfind : Store.find s id = some p)
    (hcond : (viewsBelowLimit p && notExpiredAt p t) = false) :
    getPasteAndIncrementViews s id t false false = (s, .absent) := by
  simp [getPasteAndIncrementViews, increment_fail_eq hfind hcond]

theorem consume_store_eq (s : Store) (id : String) (t : Int) (fF : Bool) :
    (getPasteAndIncrementViews s id t false fF).1 =
      (increment_paste_views s id t).1 := by
  simp only [getPasteAndIncrementViews, Bool.false_eq_true, if_false]
  split
  · rfl
  · split
    · rfl
    · split <;> rfl

theorem set_expires_at_view_count (p : Paste) :
    (set_expires_at p).view_count = p.view_count := by
  unfold set_expires_at
  cases h : p.ttl_seconds <;> simp [h]

theorem set_expires_at_max_views (p : Paste) :
    (set_expires_at p).max_views = p.max_views := by
  unfold set_expires_at
  cases h : p.ttl_seconds <;> simp [h]

theorem viewWithinLimit_increment {p : Paste}
    (h : viewsBelowLimit p = true) :
    viewWithinLimit { p with view_count := p.view_count + 1 } = true := by
  unfold viewsBelowLimit at h
  unfold viewWithinLimit
  cases hm : p.max_views with
  | none => simp [hm]
  | some m =>
    rw [hm] at h
    simp only [decide_eq_true_eq] at h
    simp only [hm, decide_eq_true_eq]
    push_cast
    omega

/-- C1: for every paste with `max_views` set, the store's conditional increment
(`increment_paste_views`) only fires while `view_count` is strictly below
`max_views`, so the table-wide invariant `view_count ≤ max_views` is preserved
by the increment, is established by the insert (which starts `view_count` at 0
against a positive `max_views`), and is preserved by the engine's consume
operation. -/
theorem C1_view_limit_invariant (s : Store) (pid : String) (now : Int)
    (hInv : storeInv s = true) :
    storeInv (increment_paste_views s pid now).1 = true ∧
    (∀ input newId s2 p, dbInsert s input newId now = some (s2, p) →
      p.view_count = 0 ∧ storeInv s2 = true) ∧
    (∀ iF fF, storeInv (getPasteAndIncrementViews s pid now iF fF).1 = true) := by
  have hinc : storeInv (increment_paste_views s pid now).1 = true := by
    cases hf : Store.find s pid with
    | none => simpa [increment_missing_eq hf] using hInv
    | some p =>
      cases hc : (viewsBelowLimit p && notExpiredAt p now) with
      | false => simpa [increment_fail_eq hf hc] using hInv
      | true =>
        rw [increment_success_eq hf hc]
        have hc' := hc
        rw [Bool.and_eq_true] at hc'
        exact storeInv_update hInv (viewWithinLimit_increment hc'.1)
  refine ⟨hinc, ?_, ?_⟩
  · intro input newId s2 p hins
    unfold dbInsert at hins
    split at hins
    · next hcheck =>
      simp only [Option.some.injEq, Prod.mk.injEq] at hins
      obtain ⟨hs2, hp⟩ := hins
      have hrow : viewWithinLimit (set_expires_at
          { content := input.content, ttl_seconds := input.ttl_seconds
            max_views := input.max_views, view_count := 0
            created_at := now, expires_at := none }) = true := by
        have hmv0 := hcheck
        rw [Bool.and_eq_true] at hmv0
        have hmv := hmv0.2
        unfold viewWithinLimit
        rw [set_expires_at_max_views, set_expires_at_view_count]
        cases hm : input.max_views with
        | none => simp
        | some m =>
          rw [hm] at hmv
          simp only [decide_eq_true_eq] at hmv ⊢
          simp
          omega
      constructor
      · rw [← hp, set_expires_at_view_count]
      · rw [← hs2]
        simp only [storeInv, List.all_append, Bool.and_eq_true]
        exact ⟨hInv, by simpa [storeInv] using hrow⟩
    · exact absurd hins (by simp)
  · intro iF fF
    cases iF with
    | true => simpa [getPasteAndIncrementViews] using hInv
    | false => rw [consume_store_eq]; exact hinc

theorem succCount_cons_success (p : Paste) (rs : List ConsumeResult) :
    succCount (.success p :: rs) = succCount rs + 1 := by
  simp [succCount, List.countP_cons]

theorem succCount_cons_absent (rs : List ConsumeResult) :
    succCount (.absent :: rs) = succCount rs := by
  simp [succCount, List.countP_cons]

theorem absCount_cons_success (p : Paste) (rs : List ConsumeResult) :
    absCount (.success p :: rs) = absCount rs := by
  simp [absCount, List.countP_cons]

theorem absCount_cons_absent (rs : List ConsumeResult) :
    absCount (.absent :: rs) = absCount rs + 1 := by
  simp [absCount, List.countP_cons]

theorem runConsumes_general (times : List Int) :
    ∀ (s : Store) (id : String) (p : Paste) (K : Int),
      Store.find s id = some p →
      p.max_views = some K →
      (p.view_count : Int) ≤ K →
      (∀ t ∈ times, notExpiredAt p t = true) →
      succCount (runConsumes s id times).2
          = min times.length (K - (p.view_count : Int)).toNat ∧
      absCount (runConsumes s id times).2
          = times.length - min times.length (K - (p.view_count : Int)).toNat ∧
      ∃ q, Store.find (runConsumes s id times).1 id = some q ∧
        q.max_views = p.max_views ∧
        q.view_count = p.view_count
            + min times.length (K - (p.view_count : Int)).toNat := by
  induction times with
  | nil =>
    intro s id p K hfind hmv hle htimes
    refine ⟨by simp [runConsumes, succCount], by simp [runConsumes, absCount],
      p, by simpa [runConsumes] using hfind, rfl, by simp⟩
  | cons t ts ih =>
    intro s id p K hfind hmv hle htimes
    by_cases hv : (p.view_count : Int) < K
    · have hvb : viewsBelowLimit p = true := by
        unfold viewsBelowLimit
        rw [hmv]
        simpa using hv
      have hne : notExpiredAt p t = true := htimes t (List.mem_cons_self _ _)
      have hcond : (viewsBelowLimit p && notExpiredAt p t) = true := by
        rw [Bool.and_eq_true]
        exact ⟨hvb, hne⟩
      have hstep := consume_success_eq hfind hcond
      have hfind' : Store.find
          (Store.update s id { p with view_count := p.view_count + 1 }) id
          = some { p with view_count := p.view_count + 1 } :=
        find_update_self hfind
      have htimes' : ∀ u ∈ ts,
          notExpiredAt { p with view_count := p.view_count + 1 } u = true := by
        intro u hu
        have h := htimes u (List.mem_cons_of_mem _ hu)
        simpa [notExpiredAt] using h
      have hrec := ih (Store.update s id { p with view_count := p.view_count + 1 })
        id { p with view_count := p.view_count + 1 } K hfind' hmv
        (by simp only; push_cast; omega) htimes'
      simp only at hrec
      obtain ⟨h1, h2, q, hq, hqm, hqv⟩ := hrec
      simp only [runConsumes, hstep]
      refine ⟨?_, ?_, q, hq, by simpa using hqm, ?_⟩
      · rw [succCount_cons_success, h1]
        simp only [List.length_cons]
        omega
      · rw [absCount_cons_success, h2]
        simp only [List.length_cons]
        omega
      · rw [hqv]
        simp only [List.length_cons]
        omega
    · have hvK : (p.view_count : Int) = K := le_antisymm hle (not_lt.mp hv)
      have hvb : viewsBelowLimit p = false := by
        unfold viewsBelowLimit
        rw [hmv]
        simp
        omega
      have hcond : (viewsBelowLimit p && notExpiredAt p t) = false := by
        rw [hvb]
        rfl
      have hstep := consume_fail_eq hfind hcond
      have htimes' : ∀ u ∈ ts, notExpiredAt p u = true := fun u hu =>
        htimes u (List.mem_cons_of_mem _ hu)
      obtain ⟨h1, h2, q, hq, hqm, hqv⟩ := ih s id p K hfind hmv hle htimes'
      simp only [runConsumes, hstep]
      refine ⟨?_, ?_, q, hq, hqm, ?_⟩
      · rw [succCount_cons_absent, h1]
        simp only [List.length_cons]
        omega
      · rw [absCount_cons_absent, h2]
        simp only [List.length_cons]
        omega
      · rw [hqv]
        simp only [List.length_cons]
        omega

/-- Witness for C1: the invariant holds after consuming a view of a concrete
store satisfying it. -/
theorem C1_view_limit_invariant_witness :
    storeInv storeA = true ∧
    storeInv (increment_paste_views storeA "a" 5).1 = true :=
  ⟨by decide, (C1_view_limit_invariant storeA "a" 5 (by decide)).1⟩

/-- C2: for a paste created with `view_count = 0` and `max_views = K`, any
schedule of `C > K` `try_consume` calls made at pre-expiry times has exactly
`K` successes and `C − K` absent results, and leaves `view_count = K`.  Each
call's only store mutation is the single atomic `increment_paste_views` step,
so every concurrent execution is one of the interleavings quantified here (one
list of per-call times). -/
theorem C2_exactly_K_succeed (s : Store) (id : String) (p : Paste)
    (K : Int) (times : List Int)
    (hfind : Store.find s id = some p)
    (hvc : p.view_count = 0)
    (hmv : p.max_views = some K)
    (hK : 1 ≤ K)
    (hC : K < (times.length : Int))
    (htimes : ∀ t ∈ times, notExpiredAt p t = true) :
    (succCount (runConsumes s id times).2 : Int) = K ∧
    (absCount (runConsumes s id times).2 : Int) = (times.length : Int) - K ∧
    ∃ q, Store.find (runConsumes s id times).1 id = some q ∧
      q.max_views = some K ∧ (q.view_count : Int) = K := by
  obtain ⟨h1, h2, q, hq, hqm, hqv⟩ :=
    runConsumes_general times s id p K hfind hmv (by omega) htimes
  rw [hvc] at h1 h2 hqv
  refine ⟨by omega, by omega, q, hq, by rw [hqm, hmv], by omega⟩

/-- Witness for C2: five consume calls race against a `max_views = 2` paste;
exactly two succeed. -/
theorem C2_exactly_K_succeed_witness :
    Store.find storeA "a" = some pasteA ∧
    (succCount (runConsumes storeA "a" [1, 2, 3, 4, 5]).2 : Int) = 2 :=
  ⟨by decide,
    (C2_exactly_K_succeed storeA "a" pasteA 2 [1, 2, 3, 4, 5]
      (by decide) (by decide) (by decide) (by decide) (by decide)
      (by decide)).1⟩

/-- C3: `is_paste_available` is `true` exactly when the row exists, `now` is
strictly before any set `expires_at` (so at the expiry instant it is already
`false`), and the view count is strictly below any set `max_views`. -/
theorem C3_is_available_characterization (s : Store) (id : String) (now : Int) :
    is_paste_available s id now = true ↔
      ∃ p, Store.find s id = some p ∧
        (∀ e, p.expires_at = some e → now < e) ∧
        (∀ m, p.max_views = some m → (p.view_count : Int) < m) := by
  unfold is_paste_available
  cases hf : Store.find s id with
  | none => simp
  | some p =>
    cases he : p.expires_at <;> cases hm : p.max_views <;>
      simp [he, hm]

/-- C4: `getPasteUnavailabilityReason` reports `not_found` for a missing row;
for a stored row, expiry is checked first and wins, then the view limit, then
the `not_found` fallback. -/
theorem C4_diagnosis_priority (s : Store) (id : String) (now : Int) :
    (Store.find s id = none →
      getPasteUnavailabilityReason s id now = .not_found) ∧
    (∀ p e, Store.find s id = some p → p.expires_at = some e → now ≥ e →
      getPasteUnavailabilityReason s id now = .expired) ∧
    (∀ p m, Store.find s id = some p →
      (∀ e, p.expires_at = some e → now < e) →
      p.max_views = some m → (p.view_count : Int) ≥ m →
      getPasteUnavailabilityReason s id now = .max_views_reached) ∧
    (∀ p, Store.find s id = some p →
      (∀ e, p.expires_at = some e → now < e) →
      (∀ m, p.max_views = some m → (p.view_count : Int) < m) →
      getPasteUnavailabilityReason s id now = .not_found) := by
  refine ⟨?_, ?_, ?_, ?_⟩
  · intro h
    simp [getPasteUnavailabilityReason, h]
  · intro p e hfind he hnow
    simp [getPasteUnavailabilityReason, hfind, he, hnow]
  · intro p m hfind hexp hm hvc
    have hexp' : (match p.expires_at with
        | some e => decide (now ≥ e)
        | none => false) = false := by
      cases heo : p.expires_at with
      | none => rfl
      | some e =>
        have := hexp e heo
        simp
        omega
    simp [getPasteUnavailabilityReason, hfind, hexp', hm, hvc]
  · intro p hfind hexp hmv
    have hexp' : (match p.expires_at with
        | some e => decide (now ≥ e)
        | none => false) = false := by
      cases heo : p.expires_at with
      | none => rfl
      | some e =>
        have := hexp e heo
        simp
        omega
    have hmv' : (match p.max_views with
        | some m => decide ((p.view_count : Int) ≥ m)
        | none => false) = false := by
      cases hmo : p.max_views with
      | none => rfl
      | some m =>
        have := hmv m hmo
        simp
        omega
    simp [getPasteUnavailabilityReason, hfind, hexp', hmv']

/-- Witness for C4: a paste simultaneously past expiry and at its view limit
is diagnosed `expired`, not `max_views_reached`. -/
theorem C4_diagnosis_priority_witness :
    getPasteUnavailabilityReason
      [("a", { pasteA with expires_at := some 10, view_count := 2 })] "a" 10
      = .expired :=
  (C4_diagnosis_priority
      [("a", { pasteA with expires_at := some 10, view_count := 2 })] "a" 10).2.1
    { pasteA with expires_at := some 10, view_count := 2 } 10
    (by decide) (by decide) (by decide)

/-- C5: `remaining_views` is `null` exactly when `max_views` is absent;
otherwise it is `max(0, max_views - view_count)`, never negative, and `0` when
the view count has reached the limit. -/
theorem C5_remaining_views (p : Paste) :
    (remaining_views p = none ↔ p.max_views = none) ∧
    (∀ m, p.max_views = some m →
      remaining_views p = some (max 0 (m - (p.view_count : Int)))) ∧
    (∀ r, remaining_views p = some r → 0 ≤ r) ∧
    (∀ m, p.max_views = some m → (p.view_count : Int) = m →
      remaining_views p = some 0) := by
  unfold remaining_views
  cases hm : p.max_views with
  | none => simp
  | some m =>
    refine ⟨by simp, ?_, ?_, ?_⟩
    · intro m' hm'
      obtain rfl : m = m' := by injection hm'
      rfl
    · intro r hr
      obtain rfl : max 0 (m - (p.view_count : Int)) = r := by injection hr
      omega
    · intro m' hm' hvc
      obtain rfl : m = m' := by injection hm'
      show some (max 0 (m - (p.view_count : Int))) = some 0
      rw [show max 0 (m - (p.view_count : Int)) = 0 by omega]

/-- Witness for C5: a paste read at its view limit has zero remaining views. -/
theorem C5_remaining_views_witness :
    remaining_views { pasteA with view_count := 2 } = some 0 :=
  (C5_remaining_views { pasteA with view_count := 2 }).2.2.2 2 (by decide)
    (by decide)

/-- C6: a failing conditional-increment RPC makes `getPasteAndIncrementViews`
throw the distinct `DatabaseError` outcome with the table untouched — never the
`null`/absent result — and the route maps the two outcomes to distinguishable
statuses: 500 for the store error, 404 for a legitimately absent paste. -/
theorem C6_store_error_distinct (s : Store) (id : String) (now : Int)
    (fF : Bool) :
    getPasteAndIncrementViews s id now true fF = (s, .dbError) ∧
    ConsumeResult.dbError ≠ ConsumeResult.absent ∧
    (isValidUuid id = true → (getPasteHandler s id now true fF).1 = 500) ∧
    (∀ iF fF2, isValidUuid id = true →
      (getPasteAndIncrementViews s id now iF fF2).2 = .absent →
      (getPasteHandler s id now iF fF2).1 = 404) := by
  refine ⟨by simp [getPasteAndIncrementViews], by simp, ?_, ?_⟩
  · intro h
    simp [getPasteHandler, h, getPasteAndIncrementViews]
  · intro iF fF2 h habs
    rcases hg : getPasteAndIncrementViews s id now iF fF2 with ⟨s2, r⟩
    rw [hg] at habs
    simp only at habs
    subst habs
    simp [getPasteHandler, h, hg]

/-- Witness for C6: with a valid id and a failing increment RPC the handler
answers 500 and the table is unchanged. -/
theorem C6_store_error_distinct_witness :
    isValidUuid "123e4567-e89b-12d3-a456-426614174000" = true ∧
    (getPasteHandler storeA "123e4567-e89b-12d3-a456-426614174000" 5
        true false).1 = 500 :=
  ⟨by decide,
    (C6_store_error_distinct storeA "123e4567-e89b-12d3-a456-426614174000" 5
        false).2.2.1 (by decide)⟩

/-- C7 counterexample: the store-level `createPaste` run on empty content
throws `DatabaseError` (the insert is rejected by the schema CHECK
constraints), not the `ValidationError` the claim states. -/
theorem C7_counterexample :
    createPaste [] ⟨"", none, none⟩ "id1" 0 = .databaseError ∧
    createPaste [] ⟨"", none, none⟩ "id1" 0 ≠ .validationError := by
  decide

/-- C7 amended: on empty content or a non-positive `ttl_seconds` or
`max_views`, the store insert is rejected (no record is created) and
`createPaste` fails — with `DatabaseError`, not `ValidationError` — while the
API route rejects the input with a 400 validation response before `createPaste`
is ever called, leaving the table unchanged. -/
theorem C7_invalid_create_rejected (s : Store) (input : CreatePasteInput)
    (newId : String) (now : Int)
    (hbad : input.content.length = 0 ∨
      (∃ t, input.ttl_seconds = some t ∧ t ≤ 0) ∨
      (∃ m, input.max_views = some m ∧ m ≤ 0)) :
    dbInsert s input newId now = none ∧
    createPaste s input newId now = .databaseError ∧
    postPasteHandler s input newId now = (400, s) := by
  have hcond : (decide (0 < input.content.length) &&
      (match input.ttl_seconds with
       | none => true
       | some t => decide (1 ≤ t)) &&
      (match input.max_views with
       | none => true
       | some m => decide (1 ≤ m))) = false := by
    rcases hbad with h | ⟨t, ht, hle⟩ | ⟨m, hm, hle⟩
    · simp [h]
    · rw [ht]
      simp [show ¬ (1 ≤ t) from by omega]
    · rw [hm]
      simp [show ¬ (1 ≤ m) from by omega]
  have hschema : createPasteSchemaOk input = false := by
    unfold createPasteSchemaOk
    rcases hbad with h | ⟨t, ht, hle⟩ | ⟨m, hm, hle⟩
    · simp [h]
    · rw [ht]
      simp [show ¬ (1 ≤ t) from by omega]
    · rw [hm]
      simp [show ¬ (1 ≤ m) from by omega]
  refine ⟨?_, ?_, ?_⟩
  · simp [dbInsert, hcond]
  · simp [createPaste, dbInsert, hcond]
  · simp [postPasteHandler, hschema]

/-- Witness for C7: empty content is rejected before any insert. -/
theorem C7_invalid_create_rejected_witness :
    dbInsert [] ⟨"", none, none⟩ "id1" 0 = none ∧
    postPasteHandler [] ⟨"", none, none⟩ "id1" 0 = (400, []) :=
  ⟨(C7_invalid_create_rejected [] ⟨"", none, none⟩ "id1" 0 (Or.inl rfl)).1,
   (C7_invalid_create_rejected [] ⟨"", none, none⟩ "id1" 0 (Or.inl rfl)).2.2⟩

/-- C8: unless the TEST_MODE environment variable is exactly `'1'`,
`getTestTime` returns `null` whatever the `x-test-now-ms` header holds, so two
requests differing only in that header see the same (real-clock) time. -/
theorem C8_test_time_ignored (env : Option String) (h1 h2 : Option String)
    (henv : env ≠ some "1") :
    getTestTime env h1 = none ∧ getTestTime env h1 = getTestTime env h2 := by
  unfold getTestTime
  rw [if_pos henv, if_pos henv]
  exact ⟨rfl, rfl⟩

/-- Witness for C8: TEST_MODE='0' makes the header inert. -/
theorem C8_test_time_ignored_witness :
    (some "0" : Option String) ≠ some "1" ∧
    getTestTime (some "0") (some "123") = none :=
  ⟨by decide, (C8_test_time_ignored (some "0") (some "123") none (by decide)).1⟩

/-- C9 counterexample: against an available paste, a successful increment
followed by a failing re-read makes `getPasteAndIncrementViews` return the
absent result even though a view was consumed: the store differs and the view
count is now 1. -/
theorem C9_counterexample :
    (getPasteAndIncrementViews storeA "a" 5 false true).2 = .absent ∧
    (getPasteAndIncrementViews storeA "a" 5 false true).1 ≠ storeA ∧
    (Store.find (getPasteAndIncrementViews storeA "a" 5 false true).1 "a").map
        Paste.view_count = some 1 := by
  decide

/-- C9 amended: when the post-increment re-read does not fail, an absent
result from `getPasteAndIncrementViews` implies the conditional increment did
not fire and the table is unchanged; the unchanged-state guarantee does not
extend to the path where the increment succeeds and the re-read fails. -/
theorem C9_absent_frame (s : Store) (id : String) (now : Int) (iF : Bool)
    (habs : (getPasteAndIncrementViews s id now iF false).2 = .absent) :
    (getPasteAndIncrementViews s id now iF false).1 = s := by
  cases iF with
  | true => simp [getPasteAndIncrementViews] at habs
  | false =>
    cases hf : Store.find s id with
    | none => simp [getPasteAndIncrementViews, increment_missing_eq hf]
    | some p =>
      cases hc : (viewsBelowLimit p && notExpiredAt p now) with
      | false => simp [consume_fail_eq hf hc]
      | true =>
        rw [consume_success_eq hf hc] at habs
        simp at habs

/-- Witness for C9: an exhausted paste yields absent and the table is
unchanged. -/
theorem C9_absent_frame_witness :
    (getPasteAndIncrementViews [("a", { pasteA with view_count := 2 })] "a" 5
        false false).1 = [("a", { pasteA with view_count := 2 })] :=
  C9_absent_frame [("a", { pasteA with view_count := 2 })] "a" 5 false
    (by decide)

/-- C10: a syntactically invalid id is rejected with a 400 response before any
store operation, leaving every paste's stored state unchanged. -/
theorem C10_invalid_id_no_effect (s : Store) (id : String) (now : Int)
    (iF fF : Bool) (h : isValidUuid id = false) :
    getPasteHandler s id now iF fF = (400, s) := by
  simp [getPasteHandler, h]

/-- Witness for C10: a malformed id gets 400 and the table stays intact. -/
theorem C10_invalid_id_no_effect_witness :
    getPasteHandler storeA "not-a-uuid" 5 false false = (400, storeA) :=
  C10_invalid_id_no_effect storeA "not-a-uuid" 5 false false (by decide)

end PastebinLite
